import Mathlib

/-!
Verification development for the stablecoin payment-processor / yield-optimizer
core: a shallow embedding of the ledger router (`src/backend/routers/stablecoin.py`),
the yield optimizer and KYC middleware (`src/ai_engine/optimizer/yield_optimizer.py`),
and the cross-chain router (`src/ai_engine/optimizer/cross_chain.py`), together with
theorems settling the behavioural claims about them.

Modelling conventions: Python floats are embedded as `ℚ` (every literal in the source
is an exact decimal); Python dicts used as key-value stores are embedded as association
lists (`List (key × value)`) with `List.lookup`, and the positions dict (only ever
iterated over its values) as a `List` in insertion order; `random`/`uuid`/timestamp
values are injected as explicit parameters or omitted when no claim mentions them;
raising an HTTPException / ValueError is embedded as returning an `Except` error value.
Handlers that mutate the shared store return the (possibly updated) store together
with the `Except` result, so that "state unchanged on failure" is expressible.
-/

namespace DefiCore

deriving instance DecidableEq for Except

/-! ## Data model (`src/backend/routers/stablecoin.py`, Pydantic models) -/

/-- The `Wallet` model: address, KYC flag/tier, balance, collateral ratio
(defaults: unverified, tier "none", balance 0, collateral_ratio 0). -/
structure Wallet where
  address : String
  kyc_verified : Bool
  kyc_tier : String
  balance : ℚ
  collateral_ratio : ℚ
deriving DecidableEq

/-- The in-memory `wallets_db` dict, keyed by address. -/
abbrev WalletDB := List (String × Wallet)

/-- The `YieldPosition` model. -/
structure YieldPosition where
  position_id : String
  protocol : String
  deposited_amount : ℚ
  apy : ℚ
  earned_yield : ℚ
  status : String
deriving DecidableEq

/-- The in-memory `positions_db` dict; the code only ever reads `positions_db.values()`,
so it is embedded as the list of stored positions in insertion order. -/
abbrev PositionsDB := List YieldPosition

/-- Errors raised by `mint_stablecoin` (404 wallet not found, 403 KYC required,
400 insufficient collateral ratio). -/
inductive MintError
  | NotFound
  | ComplianceRequired
  | InsufficientCollateral
deriving DecidableEq

/-- Errors raised by `redeem_stablecoin`. -/
inductive RedeemError
  | NotFound
  | InsufficientBalance
deriving DecidableEq

/-- The response of a successful mint (`tx_hash` and `timestamp`, which are
random/clock values no claim mentions, are omitted). -/
structure MintReceipt where
  wallet : String
  minted_amount : ℚ
  new_balance : ℚ
deriving DecidableEq

/-- The response of a successful redeem (again without `tx_hash`/`timestamp`). -/
structure RedeemReceipt where
  wallet : String
  redeemed_amount : ℚ
  collateral_received : ℚ
  new_balance : ℚ
deriving DecidableEq

/-- In-place mutation of the wallet object found in the dict: replace the (first)
entry for `addr`. -/
def setWallet : WalletDB → String → Wallet → WalletDB
  | [], _, _ => []
  | (k, v) :: rest, addr, w =>
    if k = addr then (k, w) :: rest else (k, v) :: setWallet rest addr w

/-- Handler `mint_stablecoin` (stablecoin.py lines 68–94): look the wallet up (404 if absent),
reject if not KYC-verified (403), reject if `collateral_ratio < 1.5` (400), otherwise
add `amount` to the balance.  The source also computes an unused
`required_collateral = amount * 2` local, which has no effect and is not modelled. -/
def mint_stablecoin (db : WalletDB) (addr : String) (amount : ℚ) :
    WalletDB × Except MintError MintReceipt :=
  match db.lookup addr with
  | none => (db, Except.error MintError.NotFound)
  | some wallet =>
    if wallet.kyc_verified = false then (db, Except.error MintError.ComplianceRequired)
    else if wallet.collateral_ratio < 1.5 then
      (db, Except.error MintError.InsufficientCollateral)
    else
      (setWallet db addr { wallet with balance := wallet.balance + amount },
       Except.ok ⟨addr, amount, wallet.balance + amount⟩)

/-- Handler `redeem_stablecoin` (stablecoin.py lines 97–118): look the wallet up (404 if
absent), reject if `balance < amount` (400), otherwise subtract `amount` and report
`collateral_received = amount * 1.5`. -/
def redeem_stablecoin (db : WalletDB) (addr : String) (amount : ℚ) :
    WalletDB × Except RedeemError RedeemReceipt :=
  match db.lookup addr with
  | none => (db, Except.error RedeemError.NotFound)
  | some wallet =>
    if wallet.balance < amount then (db, Except.error RedeemError.InsufficientBalance)
    else
      (setWallet db addr { wallet with balance := wallet.balance - amount },
       Except.ok ⟨addr, amount, amount * 1.5, wallet.balance - amount⟩)

/-- Fixture: an existing wallet that is not KYC-verified and is under-collateralised
(`collateral_ratio = 1 < 1.5`). -/
def c1badWallet : Wallet := ⟨"w1", false, "none", 0, 1⟩

/-- Fixture: a wallets_db holding only `c1badWallet`. -/
def c1db : WalletDB := [("w1", c1badWallet)]

/-- Fixture: an existing wallet that passes every mint precondition. -/
def c1goodWallet : Wallet := ⟨"w2", true, "basic", 5, 2⟩

/-- Fixture: a wallets_db holding only `c1goodWallet`. -/
def c1dbGood : WalletDB := [("w2", c1goodWallet)]

/-- Fixture: wallet with balance 50 (spec scenario D). -/
def c2Wallet : Wallet := ⟨"w3", true, "basic", 50, 2⟩

/-- Fixture: a wallets_db holding only `c2Wallet`. -/
def c2db : WalletDB := [("w3", c2Wallet)]

/-! ## Yield optimizer (`src/ai_engine/optimizer/yield_optimizer.py`, `YieldOptimizer`) -/

/-- One entry of the `self.protocols` registry (name, supply APY, optional borrow
APY, supported tokens, risk level). -/
structure ProtocolData where
  name : String
  supply_apy : ℚ
  borrow_apy : Option ℚ
  tokens : List String
  risk_level : String
deriving DecidableEq

/-- The protocol registry built in `YieldOptimizer.__init__`, in insertion order. -/
def protocols : List (String × ProtocolData) :=
  [("aave", ⟨"Aave V3", 0.045, some 0.082, ["USDC", "USDT", "DAI", "ETH"], "low"⟩),
   ("compound", ⟨"Compound V3", 0.038, some 0.075, ["USDC", "USDT", "ETH"], "low"⟩),
   ("curve", ⟨"Curve Finance", 0.025, none, ["USDC", "USDT", "DAI", "FRAX"], "medium"⟩),
   ("yearn", ⟨"Yearn Finance", 0.065, none, ["USDC", "USDT"], "medium"⟩)]

/-- Method `YieldOptimizer.get_apy`: the protocol's `supply_apy`, or 0 for an unknown
protocol. -/
def get_apy (protocol : String) : ℚ :=
  match protocols.lookup protocol with
  | some d => d.supply_apy
  | none => 0

/-- One entry of the `opportunities` list built by `get_best_yield`. -/
structure Opportunity where
  protocol : String
  name : String
  apy : ℚ
  risk_level : String
  annual_yield : ℚ
deriving DecidableEq

/-- The ordering used by `opportunities.sort(key=lambda x: x["apy"], reverse=True)`:
descending by `apy`.  Python's sort is stable, and Mathlib's `insertionSort` with this
relation is the corresponding stable descending sort. -/
def oppLe (a b : Opportunity) : Prop := b.apy ≤ a.apy

instance : DecidableRel oppLe := fun a b => inferInstanceAs (Decidable (b.apy ≤ a.apy))

instance : IsTotal Opportunity oppLe := ⟨fun a b => le_total b.apy a.apy⟩

instance : IsTrans Opportunity oppLe := ⟨fun _ _ _ h1 h2 => le_trans h2 h1⟩

/-- The unsorted `opportunities` list of `get_best_yield`: registry entries whose
token set contains `token`, each mapped to an opportunity with
`annual_yield = amount * supply_apy`. -/
def opportunitiesFor (token : String) (amount : ℚ) : List Opportunity :=
  (protocols.filter (fun pd => decide (token ∈ pd.2.tokens))).map
    (fun pd => ⟨pd.1, pd.2.name, pd.2.supply_apy, pd.2.risk_level, amount * pd.2.supply_apy⟩)

/-- The result dict of `get_best_yield` (its echoed `token`/`amount` fields are
omitted; `best_protocol` is `opportunities[0] if opportunities else None`). -/
structure BestYield where
  best_protocol : Option Opportunity
  all_opportunities : List Opportunity
deriving DecidableEq

/-- Method `YieldOptimizer.get_best_yield` (yield_optimizer.py lines 51–77). -/
def get_best_yield (token : String) (amount : ℚ) : BestYield :=
  let sorted := List.insertionSort oppLe (opportunitiesFor token amount)
  ⟨sorted.head?, sorted⟩

/-- The result dict of `calculate_portfolio_yield` (the echoed `positions` field is
omitted). -/
structure PortfolioYield where
  total_value : ℚ
  weighted_apy : ℚ
  annual_yield : ℚ
deriving DecidableEq

/-- Method `YieldOptimizer.calculate_portfolio_yield` (yield_optimizer.py lines 106–124):
`weight = amount / total_value if total_value > 0 else 0`, accumulated as
`weighted_apy += weight * apy` over the positions dict. -/
def calculate_portfolio_yield (positions : List (String × ℚ)) : PortfolioYield :=
  let total_value := (positions.map (fun pa => pa.2)).sum
  let weighted_apy := positions.foldl
    (fun acc pa => acc + (if total_value > 0 then pa.2 / total_value else 0) * get_apy pa.1) 0
  ⟨total_value, weighted_apy, total_value * weighted_apy⟩

/-! ## KYC middleware (`src/ai_engine/optimizer/yield_optimizer.py`, `KYCMiddleware`) -/

/-- The table `self.tier_requirements`, reduced to the per-tier `max_transaction` ceiling (the
`required_fields` lists play no role in any behaviour verified here). -/
def tier_requirements : List (String × ℚ) :=
  [("basic", 10000), ("full", 1000000)]

/-- The list `self.kyc_providers`. -/
def kyc_providers : List String := ["kyc_aml", "chainalysis", "elliptic"]

/-- Models `random.choice(self.kyc_providers)`, with the random draw injected as a `Nat`. -/
def chooseProvider (pick : Nat) : String :=
  kyc_providers.getD (pick % kyc_providers.length) "kyc_aml"

/-- The error raised by `KYCMiddleware.verify` (`ValueError(f"Invalid tier: ...")`). -/
inductive KYCError
  | InvalidTier
deriving DecidableEq

/-- The result dict of `KYCMiddleware.verify` (its constant `timestamp` string is
omitted). -/
structure ComplianceDecision where
  wallet_address : String
  verified : Bool
  tier : String
  max_transaction : ℚ
  provider : String
deriving DecidableEq

/-- Method `KYCMiddleware.verify` (yield_optimizer.py lines 145–162): reject unknown tiers,
otherwise return a decision marking the wallet verified at `tier` with that tier's
`max_transaction` ceiling. -/
def verify (wallet_address : String) (tier : String) (pick : Nat) :
    Except KYCError ComplianceDecision :=
  match tier_requirements.lookup tier with
  | none => Except.error KYCError.InvalidTier
  | some max_tx => Except.ok ⟨wallet_address, true, tier, max_tx, chooseProvider pick⟩

/-- The result dict of `KYCMiddleware.check_transaction_limits` (its echoed `amount`
field is kept since the claim talks about `remaining = ceiling - amount`). -/
structure LimitCheck where
  allowed : Bool
  wallet_tier : String
  amount : ℚ
  limit : ℚ
  remaining : ℚ
deriving DecidableEq

/-- Method `KYCMiddleware.check_transaction_limits` (yield_optimizer.py lines 164–180): the
"simulated lookup" hard-codes `tier = "full"` for every wallet. -/
def check_transaction_limits (wallet_address : String) (amount : ℚ) : LimitCheck :=
  let tier := "full"
  let max_tx := (tier_requirements.lookup tier).getD 0
  ⟨decide (amount ≤ max_tx), tier, amount, max_tx, max_tx - amount⟩

/-- Fixture for C8: a wallet whose stored KYC tier is "basic". -/
def c8Wallet : Wallet := ⟨"0xbasic", true, "basic", 0, 2⟩

/-! ## Yield positions endpoints (`src/backend/routers/stablecoin.py`) -/

/-- The error raised by `deposit_yield` when the wallet is unknown (404). -/
inductive DepositError
  | WalletNotFound
deriving DecidableEq

/-- Python's `str.startswith`: character-wise prefix test (embedded over the
character data of the strings). -/
def startswith (s pre : String) : Bool := pre.data.isPrefixOf s.data

/-- Handler `GET /yield/positions` (stablecoin.py lines 141–144): all stored positions whose
`position_id` starts with the first 8 characters of the queried wallet address. -/
def get_yield_positions (wallet_address : String) (pdb : PositionsDB) : List YieldPosition :=
  pdb.filter (fun p => startswith p.position_id (wallet_address.take 8))

/-- Handler `POST /yield/deposit` (stablecoin.py lines 147–173): requires the wallet to
exist, snapshots the protocol's APY from the optimizer, and stores a new position
whose id is the address's first 8 characters, a dash, and a random hex suffix
(the `uuid4` draw is injected as `suffix`). -/
def deposit_yield (wdb : WalletDB) (pdb : PositionsDB) (wallet_address protocol : String)
    (amount : ℚ) (suffix : List Char) :
    Except DepositError (PositionsDB × YieldPosition) :=
  match wdb.lookup wallet_address with
  | none => Except.error DepositError.WalletNotFound
  | some _ =>
    let position : YieldPosition :=
      ⟨String.mk ((wallet_address.take 8).data ++ '-' :: suffix), protocol, amount,
       get_apy protocol, 0, "active"⟩
    Except.ok (pdb ++ [position], position)

/-- Fixture for C10: a wallet whose address shares its first 8 characters with
`"0xAAAABBBBcc"`. -/
def c10Wallet : Wallet := ⟨"0xAAAABBBBdd", true, "basic", 0, 0⟩

/-- Fixture for C10: the position `deposit_yield` creates for `c10Wallet` with
suffix `"123"`. -/
def c10Pos : YieldPosition :=
  ⟨String.mk (("0xAAAABBBBdd".take 8).data ++ '-' :: ['1', '2', '3']), "aave", 500,
   get_apy "aave", 0, "active"⟩

/-! ## Cross-chain router (`src/ai_engine/optimizer/cross_chain.py`) -/

/-- The four chains of the router's fee and APY tables. -/
inductive Chain
  | ethereum
  | arbitrum
  | base
  | optimism
deriving DecidableEq

/-- The table `self.bridge_fees` (USD). -/
def bridge_fees : Chain → ℚ
  | Chain.ethereum => 12.50
  | Chain.arbitrum => 0.45
  | Chain.base => 0.15
  | Chain.optimism => 0.30

/-- The `network_apys` table (percent). -/
def network_apys : Chain → ℚ
  | Chain.ethereum => 4.2
  | Chain.arbitrum => 8.5
  | Chain.base => 12.1
  | Chain.optimism => 6.8

/-- The iteration order of the `network_apys` dict. -/
def chainList : List Chain :=
  [Chain.ethereum, Chain.arbitrum, Chain.base, Chain.optimism]

/-- The router's decision. -/
inductive BridgeAction
  | BRIDGE
  | HOLD
deriving DecidableEq

/-- The projected profit `amount_usd * (apy / 100) * (30 / 365)`. -/
def profit30d (amount apy : ℚ) : ℚ := amount * (apy / 100) * (30 / 365)

/-- The `current_30d_profit` of staying on the current chain. -/
def current_30d_profit (current : Chain) (amount : ℚ) : ℚ :=
  profit30d amount (network_apys current)

/-- A candidate chain's projected 30-day profit net of the round-trip bridge cost
`bridge_fees[current] + bridge_fees[chain]`. -/
def net_profit (current chain : Chain) (amount : ℚ) : ℚ :=
  profit30d amount (network_apys chain) - (bridge_fees current + bridge_fees chain)

/-- The router's result dict.  The HOLD branch of the source omits the
`current_30d_profit_usd` and `estimated_gas_usd` keys, hence the `Option` fields. -/
structure BridgeEvaluation where
  action : BridgeAction
  target_chain : Chain
  projected_30d_net_profit_usd : ℚ
  current_30d_profit_usd : Option ℚ
  estimated_gas_usd : Option ℚ
deriving DecidableEq

/-- One iteration of the loop in `evaluate_cross_chain_opportunities`: skip the
current chain; otherwise select the candidate when its net profit beats both the
current chain's profit and the running best (`best_net_profit`, initialised to 0). -/
def bridgeStep (current : Chain) (amount : ℚ) (acc : Chain × ℚ) (chain : Chain) :
    Chain × ℚ :=
  if chain = current then acc
  else if current_30d_profit current amount < net_profit current chain amount ∧
      acc.2 < net_profit current chain amount then
    (chain, net_profit current chain amount)
  else acc

/-- Method `CrossChainYieldRouter.evaluate_cross_chain_opportunities` (cross_chain.py lines
19–68): fold the candidate loop over the chain table starting from
`(current_chain, 0.0)`, then BRIDGE to the selected target or HOLD if the
accumulator never moved off the current chain. -/
def evaluate_cross_chain_opportunities (current : Chain) (amount : ℚ) : BridgeEvaluation :=
  let best := chainList.foldl (bridgeStep current amount) (current, 0)
  if best.1 ≠ current then
    ⟨BridgeAction.BRIDGE, best.1, best.2, some (current_30d_profit current amount),
     some (bridge_fees current + bridge_fees best.1)⟩
  else
    ⟨BridgeAction.HOLD, current, current_30d_profit current amount, none, none⟩

/-! ## Theorems for claims C1 and C2 -/

/-- Claim C1 (amended): for every mint request, `mint` fails with `NotFound` when the
wallet does not exist; fails with `ComplianceRequired` whenever `kyc_verified` is
false, regardless of collateral; fails with `InsufficientCollateral` when
`kyc_verified` is true and `collateral_ratio < 1.5`; and otherwise succeeds with the
wallet's balance increased by exactly the requested amount, leaving the store
untouched on every failure. -/
theorem C1_mint_spec (db : WalletDB) (addr : String) (amount : ℚ) :
    (db.lookup addr = none →
      mint_stablecoin db addr amount = (db, Except.error MintError.NotFound)) ∧
    (∀ w : Wallet, db.lookup addr = some w →
      (w.kyc_verified = false →
        mint_stablecoin db addr amount = (db, Except.error MintError.ComplianceRequired)) ∧
      (w.kyc_verified = true → w.collateral_ratio < 1.5 →
        mint_stablecoin db addr amount =
          (db, Except.error MintError.InsufficientCollateral)) ∧
      (w.kyc_verified = true → ¬ w.collateral_ratio < 1.5 →
        mint_stablecoin db addr amount =
          (setWallet db addr { w with balance := w.balance + amount },
           Except.ok ⟨addr, amount, w.balance + amount⟩))) := by
  refine ⟨fun hnone => by simp [mint_stablecoin, hnone], fun w hw => ⟨?_, ?_, ?_⟩⟩
  · intro hk
    simp [mint_stablecoin, hw, hk]
  · intro hk hc
    simp [mint_stablecoin, hw, hk, hc]
  · intro hk hc
    simp [mint_stablecoin, hw, hk, hc]

/-- Witness for C1: on the fully compliant fixture wallet, minting 100 succeeds and
the balance goes from 5 to 5 + 100. -/
theorem C1_mint_spec_witness :
    mint_stablecoin c1dbGood "w2" 100 =
      (setWallet c1dbGood "w2" { c1goodWallet with balance := c1goodWallet.balance + 100 },
       Except.ok ⟨"w2", 100, c1goodWallet.balance + 100⟩) :=
  ((C1_mint_spec c1dbGood "w2" 100).2 c1goodWallet rfl).2.2 rfl (by norm_num [c1goodWallet])

/-- Counterexample to C1 as stated: on a wallet that is both unverified and
under-collateralised (`collateral_ratio = 1 < 1.5`), the code raises
`ComplianceRequired`, not `InsufficientCollateral` (the KYC check runs first), so
"fails with InsufficientCollateral whenever collateral_ratio < 1.5 regardless of KYC
status" is false. -/
theorem C1_counterexample :
    c1db.lookup "w1" = some c1badWallet ∧
    c1badWallet.collateral_ratio < 1.5 ∧
    (mint_stablecoin c1db "w1" 100).2 = Except.error MintError.ComplianceRequired ∧
    (mint_stablecoin c1db "w1" 100).2 ≠ Except.error MintError.InsufficientCollateral := by
  refine ⟨rfl, by norm_num [c1badWallet], ?_, ?_⟩ <;>
    simp [mint_stablecoin, c1db, c1badWallet]

/-- Claim C2: for every redeem request on an existing wallet, `redeem` fails with
`InsufficientBalance` if and only if `balance < amount`; on failure the store is
unchanged and a second identical redeem fails identically; on success the balance
decreases by exactly `amount` (staying ≥ 0) and the receipt reports
`collateral_received = amount * 1.5`. -/
theorem C2_redeem_spec (db : WalletDB) (addr : String) (amount : ℚ) (w : Wallet)
    (hw : db.lookup addr = some w) :
    (w.balance < amount ↔
      redeem_stablecoin db addr amount = (db, Except.error RedeemError.InsufficientBalance)) ∧
    (w.balance < amount →
      (redeem_stablecoin db addr amount).1 = db ∧
      redeem_stablecoin (redeem_stablecoin db addr amount).1 addr amount =
        redeem_stablecoin db addr amount) ∧
    (amount ≤ w.balance →
      redeem_stablecoin db addr amount =
        (setWallet db addr { w with balance := w.balance - amount },
         Except.ok ⟨addr, amount, amount * 1.5, w.balance - amount⟩) ∧
      0 ≤ w.balance - amount) := by
  refine ⟨⟨fun hlt => by simp [redeem_stablecoin, hw, hlt], fun heq => ?_⟩, ?_, ?_⟩
  · by_contra hge
    simp [redeem_stablecoin, hw, hge] at heq
  · intro hlt
    constructor
    · simp [redeem_stablecoin, hw, hlt]
    · simp [redeem_stablecoin, hw, hlt]
  · intro hge
    have hlt : ¬ w.balance < amount := not_lt.mpr hge
    exact ⟨by simp [redeem_stablecoin, hw, hlt], by linarith⟩

/-- Witness for C2 (spec scenario D): redeeming 100 from a wallet holding 50 fails
with `InsufficientBalance` and leaves the store unchanged. -/
theorem C2_redeem_spec_witness :
    redeem_stablecoin c2db "w3" 100 = (c2db, Except.error RedeemError.InsufficientBalance) :=
  (C2_redeem_spec c2db "w3" 100 c2Wallet rfl).1.mp (by norm_num [c2Wallet])

/-! ## Theorems for claims C3, C4 (yield ranking) -/

/-- The registry's supply APYs are pairwise distinct, and this persists through the
filter and the map building the opportunity list. -/
theorem opps_apy_ne (token : String) (amount : ℚ) :
    (opportunitiesFor token amount).Pairwise (fun a b => a.apy ≠ b.apy) := by
  have hbase : protocols.Pairwise (fun a b => a.2.supply_apy ≠ b.2.supply_apy) := by
    norm_num [protocols, List.pairwise_cons]
  have hfil := hbase.sublist
    (List.filter_sublist (l := protocols) (p := fun pd => decide (token ∈ pd.2.tokens)))
  exact List.pairwise_map.mpr hfil

/-- Claim C3: for every token and amount, the opportunity list of `get_best_yield` is
sorted by APY strictly descending (hence also "descending with ties broken by protocol
identifier ascending", the tie case being unrealisable: registry APYs are pairwise
distinct); the best entry is a maximum-APY member of the list; and it is `none`
exactly when no registry protocol supports the token. -/
theorem C3_best_yield_spec (token : String) (amount : ℚ) :
    ((get_best_yield token amount).all_opportunities).Pairwise
      (fun a b => b.apy < a.apy ∨ (a.apy = b.apy ∧ a.protocol < b.protocol)) ∧
    (∀ o : Opportunity, (get_best_yield token amount).best_protocol = some o →
      o ∈ (get_best_yield token amount).all_opportunities ∧
      ∀ o' ∈ (get_best_yield token amount).all_opportunities, o'.apy ≤ o.apy) ∧
    ((get_best_yield token amount).best_protocol = none ↔
      ∀ pd ∈ protocols, token ∉ pd.2.tokens) := by
  have hperm := List.perm_insertionSort oppLe (opportunitiesFor token amount)
  have hsorted : List.Sorted oppLe
      (List.insertionSort oppLe (opportunitiesFor token amount)) :=
    List.sorted_insertionSort oppLe _
  have hne : (List.insertionSort oppLe (opportunitiesFor token amount)).Pairwise
      (fun a b => a.apy ≠ b.apy) :=
    (hperm.pairwise_iff (fun h => Ne.symm h)).mpr (opps_apy_ne token amount)
  refine ⟨?_, ?_, ?_⟩
  · have hand := hsorted.and hne
    refine hand.imp ?_
    intro a b hab
    exact Or.inl (lt_of_le_of_ne hab.1 (Ne.symm hab.2))
  · intro o ho
    cases hs : List.insertionSort oppLe (opportunitiesFor token amount) with
    | nil => simp [get_best_yield, hs] at ho
    | cons a tl =>
      simp only [get_best_yield, hs, List.head?_cons, Option.some.injEq] at ho
      subst ho
      rw [hs] at hsorted
      refine ⟨by simp [get_best_yield, hs], ?_⟩
      intro o' ho'
      simp only [get_best_yield, hs, List.mem_cons] at ho'
      rcases ho' with rfl | ho'
      · exact le_refl _
      · exact (List.sorted_cons.mp hsorted).1 o' ho'
  · constructor
    · intro h
      have hnil : List.insertionSort oppLe (opportunitiesFor token amount) = [] := by
        cases hs : List.insertionSort oppLe (opportunitiesFor token amount) with
        | nil => rfl
        | cons a tl => simp [get_best_yield, hs] at h
      rw [hnil] at hperm
      have hopp : opportunitiesFor token amount = [] := hperm.symm.eq_nil
      unfold opportunitiesFor at hopp
      rw [List.map_eq_nil_iff, List.filter_eq_nil_iff] at hopp
      intro pd hpd
      simpa using hopp pd hpd
    · intro h
      have hopp : opportunitiesFor token amount = [] := by
        unfold opportunitiesFor
        rw [List.map_eq_nil_iff, List.filter_eq_nil_iff]
        intro pd hpd
        simpa using h pd hpd
      simp [get_best_yield, hopp]

/-- Witness for C3: no registry protocol supports the token "ZZZ", so the best entry
is `none`. -/
theorem C3_best_yield_spec_witness : (get_best_yield "ZZZ" 5).best_protocol = none :=
  (C3_best_yield_spec "ZZZ" 5).2.2.mpr (by decide)

/-- Counterexample to C4 as stated: with the program's registry,
`get_best_yield("USDC", 10000)` returns yearn (6.5% APY, annual yield 650) as best,
not aave (4.5%, 450): the spec's scenario forgot the registry's yearn entry. -/
theorem C4_counterexample :
    (get_best_yield "USDC" 10000).best_protocol =
      some ⟨"yearn", "Yearn Finance", 0.065, "medium", 650⟩ ∧
    ("yearn" : String) ≠ "aave" ∧ ((650 : ℚ) ≠ 450) := by
  refine ⟨?_, by decide, by norm_num⟩
  norm_num [get_best_yield, opportunitiesFor, protocols, List.insertionSort,
    List.orderedInsert, oppLe]

/-- Claim C4 (amended): with the program's registry, `get_best_yield("USDC", 10000)`
returns best protocol yearn with `annual_yield = 650`, the full ranking being
yearn (0.065), aave (0.045), compound (0.038), curve (0.025). -/
theorem C4_best_yield_usdc :
    (get_best_yield "USDC" 10000).best_protocol =
      some ⟨"yearn", "Yearn Finance", 0.065, "medium", 650⟩ ∧
    (get_best_yield "USDC" 10000).all_opportunities =
      [⟨"yearn", "Yearn Finance", 0.065, "medium", 650⟩,
       ⟨"aave", "Aave V3", 0.045, "low", 450⟩,
       ⟨"compound", "Compound V3", 0.038, "low", 380⟩,
       ⟨"curve", "Curve Finance", 0.025, "medium", 250⟩] := by
  constructor <;>
    norm_num [get_best_yield, opportunitiesFor, protocols, List.insertionSort,
      List.orderedInsert, oppLe]

/-! ## Theorems for claims C7, C8 (compliance gate) -/

/-- Claim C7: for every wallet and tier, `verify` fails with `InvalidTier` exactly
when the tier is neither "basic" nor "full"; otherwise it returns a decision marking
the wallet verified at that tier with the tier's ceiling (10,000 for basic,
1,000,000 for full), for any draw of the KYC provider. -/
theorem C7_verify_spec (wallet_address tier : String) (pick : Nat) :
    (verify wallet_address tier pick = Except.error KYCError.InvalidTier ↔
      tier ≠ "basic" ∧ tier ≠ "full") ∧
    (tier = "basic" →
      verify wallet_address tier pick =
        Except.ok ⟨wallet_address, true, "basic", 10000, chooseProvider pick⟩) ∧
    (tier = "full" →
      verify wallet_address tier pick =
        Except.ok ⟨wallet_address, true, "full", 1000000, chooseProvider pick⟩) := by
  by_cases h1 : tier = "basic"
  · subst h1
    refine ⟨by simp [verify, tier_requirements], fun _ => ?_, fun h => absurd h (by decide)⟩
    simp [verify, tier_requirements]
  · by_cases h2 : tier = "full"
    · subst h2
      have hlookf : tier_requirements.lookup "full" = some 1000000 := by decide
      refine ⟨by simp [verify, hlookf], fun h => absurd h (by decide), fun _ => ?_⟩
      simp [verify, hlookf]
    · have hb : (tier == "basic") = false := beq_eq_false_iff_ne.mpr h1
      have hf : (tier == "full") = false := beq_eq_false_iff_ne.mpr h2
      have hlook : tier_requirements.lookup tier = none := by
        simp [tier_requirements, List.lookup, hb, hf]
      exact ⟨by simp [verify, hlook, h1, h2],
        fun h => absurd h h1, fun h => absurd h h2⟩

/-- Witness for C7: verifying at tier "basic" succeeds with ceiling 10,000. -/
theorem C7_verify_spec_witness :
    verify "0xabc" "basic" 0 =
      Except.ok ⟨"0xabc", true, "basic", 10000, chooseProvider 0⟩ :=
  (C7_verify_spec "0xabc" "basic" 0).2.1 rfl

/-- Counterexample to C8 as stated: `check_transaction_limits` hard-codes the "full"
tier, so for a wallet whose stored tier is "basic" (ceiling 10,000) an amount of
500,000 is still allowed — `allowed` is not `amount ≤ the wallet's tier ceiling`. -/
theorem C8_counterexample :
    c8Wallet.kyc_tier = "basic" ∧
    tier_requirements.lookup c8Wallet.kyc_tier = some 10000 ∧
    (check_transaction_limits c8Wallet.address 500000).allowed = true ∧
    ¬ ((500000 : ℚ) ≤ 10000) := by
  have hlookf : tier_requirements.lookup "full" = some 1000000 := by decide
  refine ⟨rfl, rfl, ?_, by norm_num⟩
  norm_num [check_transaction_limits, hlookf]

/-- Claim C8 (amended): `check_transaction_limits` ignores the wallet's stored tier
and always applies the "full" tier ceiling of 1,000,000: it allows exactly the
amounts ≤ 1,000,000, reports `remaining = 1000000 - amount`, and (being a pure
function of its arguments) mutates no state. -/
theorem C8_checkLimit_spec (wallet_address : String) (amount : ℚ) :
    ((check_transaction_limits wallet_address amount).allowed = true ↔ amount ≤ 1000000) ∧
    (check_transaction_limits wallet_address amount).wallet_tier = "full" ∧
    (check_transaction_limits wallet_address amount).limit = 1000000 ∧
    (check_transaction_limits wallet_address amount).remaining = 1000000 - amount := by
  have hlookf : tier_requirements.lookup "full" = some 1000000 := by decide
  refine ⟨?_, rfl, rfl, rfl⟩
  simp [check_transaction_limits, hlookf]

/-- Witness for C8: an amount of 100 is allowed. -/
theorem C8_checkLimit_spec_witness :
    (check_transaction_limits "0xany" 100).allowed = true :=
  (C8_checkLimit_spec "0xany" 100).1.mpr (by norm_num)

/-! ## Theorems for claim C9 (portfolio yield) -/

/-- Folding `acc + f x` over a list equals the initial value plus the sum of the
mapped list. -/
theorem foldl_add_sum (f : String × ℚ → ℚ) (l : List (String × ℚ)) :
    ∀ a : ℚ, l.foldl (fun acc pa => acc + f pa) a = a + (l.map f).sum := by
  induction l with
  | nil => intro a; simp
  | cons x xs ih =>
    intro a
    simp only [List.foldl_cons, List.map_cons, List.sum_cons, ih]
    ring

/-- Summing a map of zeros gives zero. -/
theorem sum_map_zeros (l : List (String × ℚ)) : (l.map (fun _ => (0 : ℚ))).sum = 0 := by
  induction l <;> simp [*]

/-- Claim C9: `calculate_portfolio_yield` never divides by zero: `total_value` is the
sum of the position amounts; `weighted_apy` is `Σ (amount_i / total_value) * apy_i`
when `total_value > 0` and `0` when `total_value = 0`; and
`annual_yield = total_value * weighted_apy`. -/
theorem C9_portfolio_spec (positions : List (String × ℚ)) :
    (calculate_portfolio_yield positions).total_value =
      (positions.map (fun pa => pa.2)).sum ∧
    ((calculate_portfolio_yield positions).total_value > 0 →
      (calculate_portfolio_yield positions).weighted_apy =
        (positions.map (fun pa =>
          pa.2 / (calculate_portfolio_yield positions).total_value * get_apy pa.1)).sum) ∧
    ((calculate_portfolio_yield positions).total_value = 0 →
      (calculate_portfolio_yield positions).weighted_apy = 0) ∧
    (calculate_portfolio_yield positions).annual_yield =
      (calculate_portfolio_yield positions).total_value *
        (calculate_portfolio_yield positions).weighted_apy := by
  refine ⟨rfl, ?_, ?_, rfl⟩
  · intro hpos
    have h : (positions.map (fun pa => pa.2)).sum > 0 := hpos
    simp [calculate_portfolio_yield, h, foldl_add_sum]
  · intro h0
    have h : (positions.map (fun pa => pa.2)).sum = 0 := h0
    simp [calculate_portfolio_yield, h, foldl_add_sum, sum_map_zeros]

/-- Witness for C9: the empty portfolio has `total_value = 0` and its weighted APY is
0 rather than a division error. -/
theorem C9_portfolio_spec_witness :
    (calculate_portfolio_yield ([] : List (String × ℚ))).weighted_apy = 0 :=
  (C9_portfolio_spec []).2.2.1 rfl

/-! ## Theorems for claims C5, C6 (cross-chain router) -/

/-- Every chain is in the iteration order. -/
theorem chain_mem_chainList (c : Chain) : c ∈ chainList := by
  cases c <;> simp [chainList]

/-- Invariant of the candidate fold: the running best never decreases, it dominates
every candidate seen so far that beats the current chain's profit, and the final
accumulator is either untouched or records a candidate from the list, distinct from
the current chain, that beats both the current profit and the initial best. -/
theorem bridgeFold_spec (current : Chain) (amount : ℚ) (l : List Chain) :
    ∀ acc : Chain × ℚ, 0 ≤ acc.2 →
      acc.2 ≤ (l.foldl (bridgeStep current amount) acc).2 ∧
      (∀ c ∈ l, c ≠ current →
        current_30d_profit current amount < net_profit current c amount →
        net_profit current c amount ≤ (l.foldl (bridgeStep current amount) acc).2) ∧
      (l.foldl (bridgeStep current amount) acc = acc ∨
        ((l.foldl (bridgeStep current amount) acc).1 ∈ l ∧
         (l.foldl (bridgeStep current amount) acc).1 ≠ current ∧
         (l.foldl (bridgeStep current amount) acc).2 =
           net_profit current (l.foldl (bridgeStep current amount) acc).1 amount ∧
         current_30d_profit current amount <
           net_profit current (l.foldl (bridgeStep current amount) acc).1 amount ∧
         acc.2 < (l.foldl (bridgeStep current amount) acc).2)) := by
  induction l with
  | nil =>
    intro acc h0
    exact ⟨le_refl _, by simp, Or.inl rfl⟩
  | cons a l ih =>
    intro acc h0
    simp only [List.foldl_cons]
    by_cases hac : a = current
    · have hstep : bridgeStep current amount acc a = acc := by simp [bridgeStep, hac]
      rw [hstep]
      obtain ⟨h1, h2, h3⟩ := ih acc h0
      refine ⟨h1, ?_, ?_⟩
      · intro c hc hcne hlt
        rcases List.mem_cons.mp hc with rfl | hcl
        · exact absurd hac hcne
        · exact h2 c hcl hcne hlt
      · rcases h3 with h | ⟨hm, hx⟩
        · exact Or.inl h
        · exact Or.inr ⟨List.mem_cons_of_mem _ hm, hx⟩
    · by_cases hcond : current_30d_profit current amount < net_profit current a amount ∧
          acc.2 < net_profit current a amount
      · have hstep : bridgeStep current amount acc a =
            (a, net_profit current a amount) := by
          simp [bridgeStep, hac, hcond]
        rw [hstep]
        have h0' : (0 : ℚ) ≤ (a, net_profit current a amount).2 :=
          le_of_lt (lt_of_le_of_lt h0 hcond.2)
        obtain ⟨h1, h2, h3⟩ := ih (a, net_profit current a amount) h0'
        refine ⟨le_trans (le_of_lt hcond.2) h1, ?_, ?_⟩
        · intro c hc hcne hlt
          rcases List.mem_cons.mp hc with rfl | hcl
          · exact h1
          · exact h2 c hcl hcne hlt
        · rcases h3 with h | ⟨hm, hne, heq, hcur, hgt⟩
          · rw [h]
            exact Or.inr ⟨List.mem_cons_self a l, hac, rfl, hcond.1, hcond.2⟩
          · exact Or.inr ⟨List.mem_cons_of_mem _ hm, hne, heq, hcur,
              lt_trans hcond.2 hgt⟩
      · have hstep : bridgeStep current amount acc a = acc := by
          simp only [bridgeStep, if_neg hac, if_neg hcond]
        rw [hstep]
        obtain ⟨h1, h2, h3⟩ := ih acc h0
        refine ⟨h1, ?_, ?_⟩
        · intro c hc hcne hlt
          rcases List.mem_cons.mp hc with rfl | hcl
          · have hle : net_profit current c amount ≤ acc.2 :=
              not_lt.mp (fun hh => hcond ⟨hlt, hh⟩)
            exact le_trans hle h1
          · exact h2 c hcl hcne hlt
        · rcases h3 with h | ⟨hm, hx⟩
          · exact Or.inl h
          · exact Or.inr ⟨List.mem_cons_of_mem _ hm, hx⟩

/-- With the router's constant fee and APY tables, two distinct candidate chains that
each beat both the current chain's profit and zero can never have equal net profits:
the qualifying-tie case is unrealisable. -/
theorem net_profit_tie_free (current c d : Chain) (amount : ℚ) (hcd : c ≠ d)
    (hc : c ≠ current) (hd : d ≠ current)
    (h1 : current_30d_profit current amount < net_profit current c amount)
    (h2 : 0 < net_profit current c amount)
    (h3 : current_30d_profit current amount < net_profit current d amount)
    (h4 : 0 < net_profit current d amount) :
    net_profit current c amount ≠ net_profit current d amount := by
  intro he
  cases current <;> cases c <;> cases d <;>
    simp only [net_profit, current_30d_profit, profit30d, network_apys,
      bridge_fees] at h1 h2 h3 h4 he <;>
    first
      | exact hcd rfl
      | exact hc rfl
      | exact hd rfl
      | linarith

/-- Claim C5 (amended): the router BRIDGEs exactly when some candidate's 30-day net
profit strictly exceeds both the current chain's 30-day profit and zero (the running
best starts at 0, so a merely-less-unprofitable candidate is never selected); on
BRIDGE the target is such a qualifying candidate, the reported profit is its net
profit, and it strictly beats every other qualifying candidate (qualifying ties are
unrealisable); otherwise the router HOLDs. -/
theorem C5_cross_chain_spec (current : Chain) (amount : ℚ) :
    ((evaluate_cross_chain_opportunities current amount).action = BridgeAction.BRIDGE ↔
      ∃ c : Chain, c ≠ current ∧
        current_30d_profit current amount < net_profit current c amount ∧
        0 < net_profit current c amount) ∧
    (∀ c : Chain,
      (evaluate_cross_chain_opportunities current amount).action = BridgeAction.BRIDGE →
      (evaluate_cross_chain_opportunities current amount).target_chain = c →
      c ≠ current ∧
      current_30d_profit current amount < net_profit current c amount ∧
      0 < net_profit current c amount ∧
      (evaluate_cross_chain_opportunities current amount).projected_30d_net_profit_usd =
        net_profit current c amount ∧
      (∀ d : Chain, d ≠ current → d ≠ c →
        current_30d_profit current amount < net_profit current d amount →
        0 < net_profit current d amount →
        net_profit current d amount < net_profit current c amount)) := by
  obtain ⟨h1, h2, h3⟩ := bridgeFold_spec current amount chainList (current, 0) (le_refl 0)
  by_cases hrc : (chainList.foldl (bridgeStep current amount) (current, 0)).1 = current
  · have hacc : chainList.foldl (bridgeStep current amount) (current, 0) = (current, 0) := by
      rcases h3 with h | ⟨_, hne, _⟩
      · exact h
      · exact absurd hrc hne
    have heval : evaluate_cross_chain_opportunities current amount =
        ⟨BridgeAction.HOLD, current, current_30d_profit current amount, none, none⟩ := by
      simp [evaluate_cross_chain_opportunities, hrc]
    constructor
    · rw [heval]
      constructor
      · intro h
        simp at h
      · rintro ⟨c, hcne, hlt, hpos⟩
        exfalso
        have hle := h2 c (chain_mem_chainList c) hcne hlt
        rw [hacc] at hle
        exact absurd hpos (not_lt.mpr hle)
    · intro c hact
      rw [heval] at hact
      simp at hact
  · rcases h3 with h | ⟨hm, hne, heq, hcur, hgt⟩
    · rw [h] at hrc
      exact absurd rfl hrc
    have hpos : 0 < (chainList.foldl (bridgeStep current amount) (current, 0)).2 := hgt
    have heval : evaluate_cross_chain_opportunities current amount =
        ⟨BridgeAction.BRIDGE, (chainList.foldl (bridgeStep current amount) (current, 0)).1,
         (chainList.foldl (bridgeStep current amount) (current, 0)).2,
         some (current_30d_profit current amount),
         some (bridge_fees current +
           bridge_fees (chainList.foldl (bridgeStep current amount) (current, 0)).1)⟩ := by
      simp [evaluate_cross_chain_opportunities, hrc]
    constructor
    · rw [heval]
      constructor
      · intro _
        exact ⟨(chainList.foldl (bridgeStep current amount) (current, 0)).1, hne, hcur,
          heq ▸ hpos⟩
      · intro _
        rfl
    · intro c _ htc
      rw [heval] at htc
      simp only at htc
      subst htc
      refine ⟨hne, hcur, heq ▸ hpos, by rw [heval]; exact heq, ?_⟩
      intro d hdcur hdne hdlt hdpos
      have hle := h2 d (chain_mem_chainList d) hdcur hdlt
      rw [heq] at hle
      rcases lt_or_eq_of_le hle with hlt' | heq'
      · exact hlt'
      · exfalso
        exact net_profit_tie_free current
          (chainList.foldl (bridgeStep current amount) (current, 0)).1 d amount
          (Ne.symm hdne) hne hdcur hcur (heq ▸ hpos) hdlt hdpos heq'.symm

/-- Witness for C5: from ethereum with 10,000 USD the router does BRIDGE (base is a
qualifying candidate). -/
theorem C5_cross_chain_spec_witness :
    (evaluate_cross_chain_opportunities Chain.ethereum 10000).action =
      BridgeAction.BRIDGE :=
  (C5_cross_chain_spec Chain.ethereum 10000).1.mpr
    ⟨Chain.base, by decide,
     by norm_num [current_30d_profit, net_profit, profit30d, network_apys, bridge_fees],
     by norm_num [net_profit, profit30d, network_apys, bridge_fees]⟩

/-- Concrete evaluation of the router from ethereum with 10,000 USD: the fold selects
arbitrum (net 83093/1460 ≈ 56.91) and then base (net 126731/1460 ≈ 86.80), skips
optimism, and BRIDGEs to base. -/
theorem eval_eth_10000 :
    evaluate_cross_chain_opportunities Chain.ethereum 10000 =
      ⟨BridgeAction.BRIDGE, Chain.base, 126731 / 1460, some (2520 / 73),
       some (253 / 20)⟩ := by
  have s1 : bridgeStep Chain.ethereum 10000 (Chain.ethereum, 0) Chain.ethereum =
      (Chain.ethereum, 0) := by
    simp [bridgeStep]
  have s2 : bridgeStep Chain.ethereum 10000 (Chain.ethereum, 0) Chain.arbitrum =
      (Chain.arbitrum, 83093 / 1460) := by
    simp only [bridgeStep]
    rw [if_neg (by decide), if_pos
      (by constructor <;>
        norm_num [current_30d_profit, net_profit, profit30d, network_apys, bridge_fees])]
    norm_num [net_profit, profit30d, network_apys, bridge_fees]
  have s3 : bridgeStep Chain.ethereum 10000 (Chain.arbitrum, 83093 / 1460) Chain.base =
      (Chain.base, 126731 / 1460) := by
    simp only [bridgeStep]
    rw [if_neg (by decide), if_pos
      (by constructor <;>
        norm_num [current_30d_profit, net_profit, profit30d, network_apys, bridge_fees])]
    norm_num [net_profit, profit30d, network_apys, bridge_fees]
  have s4 : bridgeStep Chain.ethereum 10000 (Chain.base, 126731 / 1460) Chain.optimism =
      (Chain.base, 126731 / 1460) := by
    simp only [bridgeStep]
    rw [if_neg (by decide), if_neg
      (by norm_num [current_30d_profit, net_profit, profit30d, network_apys, bridge_fees])]
  simp only [evaluate_cross_chain_opportunities, chainList, List.foldl_cons,
    List.foldl_nil, s1, s2, s3, s4]
  rw [if_pos (by decide)]
  norm_num [current_30d_profit, profit30d, network_apys, bridge_fees]

/-- Concrete evaluation of the router from base with −10,000 USD: every candidate's
net profit is negative, so the accumulator never moves and the router HOLDs. -/
theorem eval_base_neg10000 :
    evaluate_cross_chain_opportunities Chain.base (-10000) =
      ⟨BridgeAction.HOLD, Chain.base, -7260 / 73, none, none⟩ := by
  have s1 : bridgeStep Chain.base (-10000) (Chain.base, 0) Chain.ethereum =
      (Chain.base, 0) := by
    simp only [bridgeStep]
    rw [if_neg (by decide), if_neg
      (by norm_num [current_30d_profit, net_profit, profit30d, network_apys, bridge_fees])]
  have s2 : bridgeStep Chain.base (-10000) (Chain.base, 0) Chain.arbitrum =
      (Chain.base, 0) := by
    simp only [bridgeStep]
    rw [if_neg (by decide), if_neg
      (by norm_num [current_30d_profit, net_profit, profit30d, network_apys, bridge_fees])]
  have s3 : bridgeStep Chain.base (-10000) (Chain.base, 0) Chain.base =
      (Chain.base, 0) := by
    simp [bridgeStep]
  have s4 : bridgeStep Chain.base (-10000) (Chain.base, 0) Chain.optimism =
      (Chain.base, 0) := by
    simp only [bridgeStep]
    rw [if_neg (by decide), if_neg
      (by norm_num [current_30d_profit, net_profit, profit30d, network_apys, bridge_fees])]
  simp only [evaluate_cross_chain_opportunities, chainList, List.foldl_cons,
    List.foldl_nil, s1, s2, s3, s4]
  rw [if_neg (by decide)]
  norm_num [current_30d_profit, profit30d, network_apys, bridge_fees]

/-- Counterexample to C5 as stated: from base with amount −10,000, ethereum is the
strictly greatest candidate and strictly exceeds the current chain's 30-day profit,
so the claim prescribes BRIDGE to ethereum — but the code HOLDs, because the running
best is initialised to 0 and every candidate's net profit is negative. -/
theorem C5_counterexample :
    (evaluate_cross_chain_opportunities Chain.base (-10000)).action = BridgeAction.HOLD ∧
    Chain.ethereum ≠ Chain.base ∧
    current_30d_profit Chain.base (-10000) < net_profit Chain.base Chain.ethereum (-10000) ∧
    net_profit Chain.base Chain.arbitrum (-10000) <
      net_profit Chain.base Chain.ethereum (-10000) ∧
    net_profit Chain.base Chain.optimism (-10000) <
      net_profit Chain.base Chain.ethereum (-10000) := by
  refine ⟨by rw [eval_base_neg10000], by decide, ?_, ?_, ?_⟩ <;>
    norm_num [net_profit, current_30d_profit, profit30d, network_apys, bridge_fees]

/-- Counterexample to C6 as stated: the projected 30-day net profit of the
ethereum → base move of 10,000 USD is exactly 126731/1460 ≈ 86.80, which is more
than 0.23 below the claimed ≈ 87.04. -/
theorem C6_counterexample :
    (evaluate_cross_chain_opportunities Chain.ethereum 10000).projected_30d_net_profit_usd =
      126731 / 1460 ∧
    (87.04 : ℚ) - 126731 / 1460 > 23 / 100 := by
  constructor
  · rw [eval_eth_10000]
  · norm_num

/-- Claim C6 (amended): evaluating 10,000 USD from ethereum yields BRIDGE to base
with projected 30-day net profit exactly 126731/1460 ≈ 86.80 (10000·0.121·30/365 −
12.65) and current 30-day profit exactly 2520/73 ≈ 34.52. -/
theorem C6_scenario_b :
    (evaluate_cross_chain_opportunities Chain.ethereum 10000).action =
      BridgeAction.BRIDGE ∧
    (evaluate_cross_chain_opportunities Chain.ethereum 10000).target_chain = Chain.base ∧
    (evaluate_cross_chain_opportunities Chain.ethereum 10000).projected_30d_net_profit_usd =
      126731 / 1460 ∧
    (86.79 : ℚ) < 126731 / 1460 ∧ (126731 : ℚ) / 1460 < 86.81 ∧
    (evaluate_cross_chain_opportunities Chain.ethereum 10000).current_30d_profit_usd =
      some (2520 / 73) ∧
    (34.51 : ℚ) < 2520 / 73 ∧ (2520 : ℚ) / 73 < 34.53 := by
  refine ⟨by rw [eval_eth_10000], by rw [eval_eth_10000], by rw [eval_eth_10000],
    by norm_num, by norm_num, by rw [eval_eth_10000], by norm_num, by norm_num⟩

/-! ## Theorems for claim C10 (position listing by address prefix) -/

/-- A character list is a prefix of itself followed by anything. -/
theorem isPrefixOf_self_append (l t : List Char) : l.isPrefixOf (l ++ t) = true := by
  induction l with
  | nil => simp [List.isPrefixOf]
  | cons a as ih => simp [List.isPrefixOf, ih]

/-- Claim C10: listing yield positions returns exactly the stored positions whose
`position_id` starts with the first 8 characters of the queried address; hence a
position deposited by one wallet is listed for any wallet whose address shares those
first 8 characters — each such wallet sees the other's positions. -/
theorem C10_positions_prefix_spec (wdb : WalletDB) (pdb : PositionsDB)
    (addr1 addr2 protocol : String) (amount : ℚ) (suffix : List Char)
    (hshare : addr1.take 8 = addr2.take 8) :
    (∀ p : YieldPosition, p ∈ get_yield_positions addr1 pdb ↔
      p ∈ pdb ∧ startswith p.position_id (addr1.take 8) = true) ∧
    (∀ (pdb' : PositionsDB) (pos : YieldPosition),
      deposit_yield wdb pdb addr2 protocol amount suffix = Except.ok (pdb', pos) →
      pos ∈ get_yield_positions addr1 pdb' ∧ pos ∈ get_yield_positions addr2 pdb') := by
  constructor
  · intro p
    simp [get_yield_positions, List.mem_filter]
  · intro pdb' pos hdep
    cases hw : wdb.lookup addr2 with
    | none => simp [deposit_yield, hw] at hdep
    | some w =>
      simp only [deposit_yield, hw, Except.ok.injEq, Prod.mk.injEq] at hdep
      obtain ⟨hpdb, hpos⟩ := hdep
      subst hpdb
      subst hpos
      have hsw : ∀ a : String, a.take 8 = addr2.take 8 →
          startswith
            (String.mk ((addr2.take 8).data ++ '-' :: suffix)) (a.take 8) = true := by
        intro a ha
        rw [ha]
        exact isPrefixOf_self_append _ _
      constructor
      · exact List.mem_filter.mpr ⟨by simp, hsw addr1 hshare⟩
      · exact List.mem_filter.mpr ⟨by simp, hsw addr2 rfl⟩

/-- Witness for C10: the wallets `"0xAAAABBBBcc"` and `"0xAAAABBBBdd"` share their
first 8 characters, so the position deposited by the latter is listed for the
former. -/
theorem C10_positions_prefix_spec_witness :
    c10Pos ∈ get_yield_positions "0xAAAABBBBcc" [c10Pos] :=
  ((C10_positions_prefix_spec [("0xAAAABBBBdd", c10Wallet)] [] "0xAAAABBBBcc"
      "0xAAAABBBBdd" "aave" 500 ['1', '2', '3'] (by decide)).2
    [c10Pos] c10Pos rfl).1

end DefiCore
